import Mathlib

/-!
Verification of the solar/prayer-time and qibla computation module of the
Salati application. The definitions below are a shallow embedding of the
JavaScript/TypeScript source (src/unnamed/part_000 for the prayer-time
module, src/unnamed/part_003 for the qibla bearing): JavaScript numbers are
modelled as real numbers, `Math.floor` as `Int.floor`, `Math.round` (which
is `floor (x + 1/2)`) as `round`, `Math.atan2 y x` as the complex argument
of `x + i y`, and the remainder operator `%` as truncated remainder with
the sign of the dividend.
-/

namespace Salati

open Real

/-- Truncation toward zero, as JavaScript's `%` operator truncates the
quotient before taking the remainder. -/
noncomputable def jsTrunc (x : ℝ) : ℤ := if 0 ≤ x then ⌊x⌋ else ⌈x⌉

/-- The JavaScript remainder `a % b`: `a - b * trunc (a / b)`, carrying the
sign of the dividend. -/
noncomputable def jsRem (a b : ℝ) : ℝ := a - b * (jsTrunc (a / b) : ℝ)

/-- JavaScript `Math.atan2 y x`: the argument of the complex number
`x + i y`, lying in `(-π, π]`, with `atan2 0 0 = 0`. -/
noncomputable def atan2 (y x : ℝ) : ℝ := Complex.arg ⟨x, y⟩

/-- The components of a JavaScript `Date` in local time, as the source reads
them (`getFullYear()`, `getMonth() + 1`, `getDate()`, `getHours()`,
`getMinutes()`, `getSeconds()`), together with the local UTC offset in
hours (`-date.getTimezoneOffset() / 60`, line 177). -/
structure DateTime where
  year : ℤ
  month : ℤ
  day : ℤ
  hour : ℕ
  minute : ℕ
  second : ℕ
  utcOffsetHours : ℝ

/-- Embedding of `getJulianDate` (src/unnamed/part_000, lines 207-225). -/
noncomputable def getJulianDate (d : DateTime) : ℝ :=
  let a : ℤ := ⌊((14 : ℝ) - (d.month : ℝ)) / 12⌋
  let y : ℝ := (d.year : ℝ) - (a : ℝ)
  let m : ℝ := (d.month : ℝ) + 12 * (a : ℝ) - 3
  let jdn : ℝ := (d.day : ℝ) + ((⌊(153 * m + 2) / 5⌋ : ℤ) : ℝ) + 365 * y +
    ((⌊y / 4⌋ : ℤ) : ℝ) - ((⌊y / 100⌋ : ℤ) : ℝ) + ((⌊y / 400⌋ : ℤ) : ℝ) + 1721119
  let timeFraction : ℝ :=
    ((d.hour : ℝ) + (d.minute : ℝ) / 60 + (d.second : ℝ) / 3600) / 24
  jdn + timeFraction - 0.5

/-- The Julian-date formula exactly as the specification words it, over the
integers: `a = floor((14 - month)/12)`, `y = year - a`, `m = month + 12a - 3`,
`JDN = day + floor((153m+2)/5) + 365y + floor(y/4) - floor(y/100) +
floor(y/400) + 1721119`, plus the fractional day, minus `0.5`. Integer `/`
on `ℤ` with a positive divisor is division toward minus infinity, i.e. the
spec's `floor`. -/
noncomputable def julianDateSpec (d : DateTime) : ℝ :=
  let a : ℤ := (14 - d.month) / 12
  let y : ℤ := d.year - a
  let m : ℤ := d.month + 12 * a - 3
  let jdn : ℤ := d.day + (153 * m + 2) / 5 + 365 * y + y / 4 - y / 100 + y / 400 + 1721119
  (jdn : ℝ) + ((d.hour : ℝ) + (d.minute : ℝ) / 60 + (d.second : ℝ) / 3600) / 24 - 0.5

/-- Embedding of `getSolarDeclination` (lines 228-235). -/
noncomputable def getSolarDeclination (julianDate : ℝ) : ℝ :=
  let n := julianDate - 2451545.0
  let L := jsRem (280.460 + 0.9856474 * n) 360
  let g := jsRem (357.528 + 0.9856003 * n) 360
  let lam := L + 1.915 * sin (g * π / 180) + 0.020 * sin (2 * g * π / 180)
  arcsin (sin (23.439 * π / 180) * sin (lam * π / 180)) * 180 / π

/-- Embedding of `getEquationOfTime` (lines 238-247). -/
noncomputable def getEquationOfTime (julianDate : ℝ) : ℝ :=
  let n := julianDate - 2451545.0
  let L := jsRem (280.460 + 0.9856474 * n) 360
  let g := jsRem (357.528 + 0.9856003 * n) 360
  let lam := L + 1.915 * sin (g * π / 180) + 0.020 * sin (2 * g * π / 180)
  let alpha := atan2 (cos (23.439 * π / 180) * sin (lam * π / 180)) (cos (lam * π / 180)) * 180 / π
  4 * (L - alpha)

/-- Embedding of `getSolarNoon` (lines 250-252). -/
noncomputable def getSolarNoon (longitude equationOfTime timezoneOffset : ℝ) : ℝ :=
  12 - longitude / 15 - equationOfTime / 60 + timezoneOffset

/-- The `cosHourAngle` local of `calculatePrayerTime` (line 260). -/
noncomputable def cosHourAngle (lat declination angle : ℝ) : ℝ :=
  (sin (angle * π / 180) - sin (lat * π / 180) * sin (declination * π / 180)) /
    (cos (lat * π / 180) * cos (declination * π / 180))

/-- Embedding of `calculatePrayerTime` (lines 255-272): the hour-angle
solution when `|cos H| ≤ 1`, otherwise the extreme-latitude fallback
(`6 + tz` for sunrise-type calls, `18 + tz` otherwise). -/
noncomputable def calculatePrayerTime (lat lng declination equationOfTime angle : ℝ)
    (isSunrise : Bool) (timezoneOffset : ℝ) : ℝ :=
  if |cosHourAngle lat declination angle| > 1 then
    if isSunrise then 6 + timezoneOffset else 18 + timezoneOffset
  else
    let hourAngle := arccos (cosHourAngle lat declination angle) * 180 / π / 15
    let solarNoon := getSolarNoon lng equationOfTime timezoneOffset
    if isSunrise then solarNoon - hourAngle else solarNoon + hourAngle

/-- Embedding of `getAsrTime` (lines 275-299): shadow factor 1. -/
noncomputable def getAsrTime (lat lng declination equationOfTime timezoneOffset : ℝ) : ℝ :=
  let latRad := lat * π / 180
  let decRad := declination * π / 180
  let shadowFactor : ℝ := 1
  let noonElevation := arcsin (sin latRad * sin decRad + cos latRad * cos decRad)
  let asrElevation := arctan (1 / (shadowFactor + tan (π / 2 - noonElevation)))
  let cosHA := (sin asrElevation - sin latRad * sin decRad) / (cos latRad * cos decRad)
  if |cosHA| > 1 then 15 + timezoneOffset
  else
    let hourAngle := arccos cosHA * 180 / π / 15
    let solarNoon := getSolarNoon lng equationOfTime timezoneOffset
    solarNoon + hourAngle

/-- Embedding of `timeToHourMinute` (lines 301-315). The two `while` loops
normalise the time into `[0, 24)`, which for a real input is subtraction of
`24 * floor (time / 24)`; then integer hour, rounded minute, and the
minute-overflow carry. -/
noncomputable def timeToHourMinute (time : ℝ) : ℕ × ℕ :=
  let t := time - 24 * ((⌊time / 24⌋ : ℤ) : ℝ)
  let hour := (⌊t⌋).toNat
  let minute := (round ((t - ((⌊t⌋ : ℤ) : ℝ)) * 60)).toNat
  if 60 ≤ minute then ((hour + 1) % 24, 0) else (hour, max 0 (min 59 minute))

/-- One entry of `getIslamicPrayerTimes`' result: id, display name, and the
hour/minute pair from `timeToHourMinute`. -/
structure RawPrayer where
  id : String
  name : String
  hour : ℕ
  minute : ℕ

/-- The six raw prayer times of `getIslamicPrayerTimes` (lines 183-195),
with the solar declination and equation of time as parameters (the source
computes them from the date at lines 179-181 and threads them through):
Fajr with angle `-18` and `isSunrise = false`, Sunrise with `-0.833` and
`true`, Dhuhr the solar noon, Asr via `getAsrTime`, Maghrib with `-0.833`
and `false`, Isha with `-17` and `false`. -/
noncomputable def rawPrayerTimes (lat lng declination equationOfTime timezoneOffset : ℝ) :
    List (String × String × ℝ) :=
  [("fajr", "Fajr", calculatePrayerTime lat lng declination equationOfTime (-18) false timezoneOffset),
   ("sunrise", "Sunrise", calculatePrayerTime lat lng declination equationOfTime (-0.833) true timezoneOffset),
   ("dhuhr", "Dhuhr", getSolarNoon lng equationOfTime timezoneOffset),
   ("asr", "Asr", getAsrTime lat lng declination equationOfTime timezoneOffset),
   ("maghrib", "Maghrib", calculatePrayerTime lat lng declination equationOfTime (-0.833) false timezoneOffset),
   ("isha", "Isha", calculatePrayerTime lat lng declination equationOfTime (-17) false timezoneOffset)]

/-- The minutes-since-midnight of the six prayers of `rawPrayerTimes`, after
`timeToHourMinute` (the quantity `prayer.hour * 60 + prayer.minute` of
line 148). -/
noncomputable def prayerMinutesOfParams (lat lng declination equationOfTime timezoneOffset : ℝ) :
    List ℕ :=
  (rawPrayerTimes lat lng declination equationOfTime timezoneOffset).map
    (fun p => (timeToHourMinute p.2.2).1 * 60 + (timeToHourMinute p.2.2).2)

/-- Embedding of `getIslamicPrayerTimes` (lines 175-204). -/
noncomputable def getIslamicPrayerTimes (lat lng : ℝ) (d : DateTime) : List RawPrayer :=
  let timezoneOffset := d.utcOffsetHours
  let julianDate := getJulianDate d
  let declination := getSolarDeclination julianDate
  let equationOfTime := getEquationOfTime julianDate
  (rawPrayerTimes lat lng declination equationOfTime timezoneOffset).map
    (fun p => { id := p.1, name := p.2.1,
                hour := (timeToHourMinute p.2.2).1,
                minute := (timeToHourMinute p.2.2).2 })

/-- The 12-hour hour of line 160: `0 ↦ 12`, `13..23 ↦ hour - 12`. -/
def hourTo12 (hour : ℕ) : ℕ :=
  if hour = 0 then 12 else if hour > 12 then hour - 12 else hour

/-- The AM/PM tag of line 161. -/
def ampmOf (hour : ℕ) : String := if hour ≥ 12 then "PM" else "AM"

/-- Two-digit zero padding, `minute.toString().padStart(2, '0')`. -/
def pad2 (n : ℕ) : String := if n < 10 then "0" ++ toString n else toString n

/-- The formatted time string of line 162. -/
def formatTime12 (hour minute : ℕ) : String :=
  toString (hourTo12 hour) ++ ":" ++ pad2 minute ++ " " ++ ampmOf hour

/-- One entry of the public prayer list (the `PrayerTime` interface,
lines 123-129). -/
structure PrayerTime where
  id : String
  name : String
  time : String
  isNext : Bool
  isPassed : Bool
deriving DecidableEq

/-- The `prayerMinutes` array of line 148: minutes since midnight per
prayer. -/
def prayerMinutesList (times : List RawPrayer) : List ℕ :=
  times.map (fun p => p.hour * 60 + p.minute)

/-- The `nextPrayerIndex` of lines 149-153: the first index whose minutes
strictly exceed the current minutes; `findIndex` returns `-1` when every
prayer has passed (`List.findIdx` returns the length), which line 152 maps
to index 0. -/
def nextPrayerIndex (times : List RawPrayer) (now : ℕ) : ℕ :=
  if (prayerMinutesList times).findIdx (fun t => decide (t > now)) =
      (prayerMinutesList times).length then 0
  else (prayerMinutesList times).findIdx (fun t => decide (t > now))

/-- One output record of the `times.map` of lines 155-171: formatted time
and the two flags, for the entry at index `ip.1`. -/
def annotateEntry (nxt now : ℕ) (ip : ℕ × RawPrayer) : PrayerTime :=
  { id := ip.2.id, name := ip.2.name,
    time := formatTime12 ip.2.hour ip.2.minute,
    isNext := decide (ip.1 = nxt),
    isPassed := decide (ip.2.hour * 60 + ip.2.minute ≤ now) }

/-- The annotation step of `calculatePrayerTimes` (lines 144-171). -/
def annotatePrayers (times : List RawPrayer) (nowMinutes : ℕ) : List PrayerTime :=
  times.enum.map (annotateEntry (nextPrayerIndex times nowMinutes) nowMinutes)

/-- Embedding of `calculatePrayerTimes` (lines 140-172). The source reads
`now` from the system clock (`new Date()` at line 142); that observed
instant appears here as the explicit argument `nowMinutes`
(`now.getHours() * 60 + now.getMinutes()`, line 145). -/
noncomputable def calculatePrayerTimes (latitude longitude : ℝ) (d : DateTime)
    (nowMinutes : ℕ) : List PrayerTime :=
  annotatePrayers (getIslamicPrayerTimes latitude longitude d) nowMinutes

/-- The `LocationData` interface (lines 131-137), coordinate part. -/
structure LocationData where
  latitude : ℝ
  longitude : ℝ

/-- The hardcoded prayer list of `getMockPrayerTimes` (lines 351-358). -/
def mockPrayers : List RawPrayer :=
  [{ id := "fajr", name := "Fajr", hour := 5, minute := 30 },
   { id := "sunrise", name := "Sunrise", hour := 6, minute := 55 },
   { id := "dhuhr", name := "Dhuhr", hour := 12, minute := 25 },
   { id := "asr", name := "Asr", hour := 15, minute := 40 },
   { id := "maghrib", name := "Maghrib", hour := 18, minute := 15 },
   { id := "isha", name := "Isha", hour := 19, minute := 35 }]

/-- Embedding of `getMockPrayerTimes` (lines 346-384): the hardcoded list
annotated with the same minutes/next/passed/format logic that
`calculatePrayerTimes` applies (lines 360-383 repeat lines 144-171
verbatim). -/
def getMockPrayerTimes (nowMinutes : ℕ) : List PrayerTime :=
  annotatePrayers mockPrayers nowMinutes

/-- Embedding of `getPrayerTimes` (lines 318-343). The `try` block resolves
a location (the given one, or the platform lookup, which may throw); its
outcome is the explicit `Except` argument, and the `catch` of lines 338-342
returns the mock list for every thrown error. -/
noncomputable def getPrayerTimes (locationOutcome : Except String LocationData)
    (d : DateTime) (nowMinutes : ℕ) : List PrayerTime :=
  match locationOutcome with
  | Except.ok loc => calculatePrayerTimes loc.latitude loc.longitude d nowMinutes
  | Except.error _ => getMockPrayerTimes nowMinutes

/-- The fixed Kaaba coordinate (src/unnamed/part_003, line 514). -/
noncomputable def KAABA_LOCATION : LocationData :=
  { latitude := 21.4225, longitude := 39.8262 }

/-- Embedding of `calculateQiblaDirection` (src/unnamed/part_003,
lines 547-561). -/
noncomputable def calculateQiblaDirection (userLat userLon : ℝ) : ℝ :=
  let lat1 := userLat * (π / 180)
  let lon1 := userLon * (π / 180)
  let lat2 := KAABA_LOCATION.latitude * (π / 180)
  let lon2 := KAABA_LOCATION.longitude * (π / 180)
  let dLon := lon2 - lon1
  let y := sin dLon * cos lat2
  let x := cos lat1 * sin lat2 - sin lat1 * cos lat2 * cos dLon
  let bearing := atan2 y x * (180 / π)
  jsRem (bearing + 360) 360

/-- Splitting a character list on a separator, used to model the regular
expression of `getTimeUntilNextPrayer` (line 400) structurally. -/
def splitOnChar (c : Char) : List Char → List (List Char)
  | [] => [[]]
  | x :: xs =>
    let r := splitOnChar c xs
    if x = c then [] :: r
    else
      match r with
      | [] => [[x]]
      | y :: ys => (x :: y) :: ys

/-- Decimal value of a digit list. -/
def charsToNat (l : List Char) : ℕ :=
  l.foldl (fun acc c => 10 * acc + (c.toNat - 48)) 0

/-- Embedding of the time-string parsing of `getTimeUntilNextPrayer`
(lines 399-417): the regular expression accepts one or two hour digits, two
minute digits and an AM/PM tag; `parseInt` reads the numbers and lines
413-417 convert to the 24-hour clock (`PM` and hour not 12 adds 12, `AM`
and hour 12 gives 0). -/
def parseTime12 (s : String) : Option (ℕ × ℕ) :=
  match splitOnChar ' ' s.data with
  | [hm, ap] =>
    match splitOnChar ':' hm with
    | [hs, ms] =>
      if (hs.length == 1 || hs.length == 2) && hs.all Char.isDigit &&
          ms.length == 2 && ms.all Char.isDigit &&
          (ap == ['A', 'M'] || ap == ['P', 'M']) then
        let hrs := charsToNat hs
        let mins := charsToNat ms
        let hrs24 := if ap == ['P', 'M'] then (if hrs == 12 then hrs else hrs + 12)
          else (if hrs == 12 then 0 else hrs)
        some (hrs24, mins)
      else none
    | _ => none
  | _ => none

/-! ## Helper lemmas -/

/-- Floor of the real quotient of an integer by a positive integer is the
integer division toward minus infinity. -/
theorem floor_intCast_div_real (a b : ℤ) (hb : 0 < b) :
    ⌊(a : ℝ) / (b : ℝ)⌋ = a / b := by
  have hb' : (0 : ℝ) < (b : ℝ) := by exact_mod_cast hb
  have hmod := Int.emod_add_ediv a b
  have hr0 : 0 ≤ a % b := Int.emod_nonneg a (ne_of_gt hb)
  have hrb : a % b < b := Int.emod_lt_of_pos a hb
  rw [Int.floor_eq_iff]
  constructor
  · rw [le_div_iff hb']
    have hz1 : b * (a / b) ≤ a := by linarith
    calc ((a / b : ℤ) : ℝ) * (b : ℝ) = ((b * (a / b) : ℤ) : ℝ) := by push_cast; ring
      _ ≤ (a : ℝ) := by exact_mod_cast hz1
  · rw [div_lt_iff hb']
    have hz2 : a < b * (a / b) + b := by linarith
    calc (a : ℝ) < ((b * (a / b) + b : ℤ) : ℝ) := by exact_mod_cast hz2
      _ = (((a / b : ℤ) : ℝ) + 1) * (b : ℝ) := by push_cast; ring

/-- The JavaScript remainder of a nonnegative number by a positive one lies
in `[0, b)`. -/
theorem jsRem_bounds_of_pos (a b : ℝ) (ha : 0 ≤ a) (hb : 0 < b) :
    0 ≤ jsRem a b ∧ jsRem a b < b := by
  unfold jsRem jsTrunc
  have hq : 0 ≤ a / b := div_nonneg ha hb.le
  rw [if_pos hq]
  constructor
  · have h1 : ((⌊a / b⌋ : ℤ) : ℝ) ≤ a / b := Int.floor_le (a / b)
    have h2 : ((⌊a / b⌋ : ℤ) : ℝ) * b ≤ a := by
      rw [← le_div_iff hb]; exact h1
    nlinarith
  · have h1 : a / b < ((⌊a / b⌋ : ℤ) : ℝ) + 1 := Int.lt_floor_add_one (a / b)
    have h2 : a < (((⌊a / b⌋ : ℤ) : ℝ) + 1) * b := by
      rw [← div_lt_iff hb]; exact h1
    nlinarith

/-- The normalised bearing `(atan2 y x * 180 / π + 360) % 360` lies in
`[0, 360)` for every `y`, `x`. -/
theorem bearing_normalized (y x : ℝ) :
    0 ≤ jsRem (atan2 y x * (180 / π) + 360) 360 ∧
      jsRem (atan2 y x * (180 / π) + 360) 360 < 360 := by
  have hπ := Real.pi_pos
  have h1 : Complex.arg ⟨x, y⟩ ≤ π := Complex.arg_le_pi _
  have h2 : -π < Complex.arg ⟨x, y⟩ := Complex.neg_pi_lt_arg _
  have h180 : (0 : ℝ) < 180 / π := by positivity
  have hb1 : atan2 y x * (180 / π) ≤ 180 := by
    unfold atan2
    calc Complex.arg ⟨x, y⟩ * (180 / π) ≤ π * (180 / π) :=
          mul_le_mul_of_nonneg_right h1 h180.le
      _ = 180 := by field_simp
  have hb2 : (-180 : ℝ) < atan2 y x * (180 / π) := by
    unfold atan2
    have h4 : -π * (180 / π) = (-180 : ℝ) := by field_simp; ring
    calc (-180 : ℝ) = -π * (180 / π) := h4.symm
      _ < Complex.arg ⟨x, y⟩ * (180 / π) := mul_lt_mul_of_pos_right h2 h180
  exact jsRem_bounds_of_pos _ _ (by linarith) (by norm_num)

/-! ## C6: the Julian-date computation matches the spec formula -/

/-- C6. For every calendar date-time, `getJulianDate` computes exactly the
spec's Gregorian Julian-date formula: `a = floor((14 - month)/12)`,
`y = year - a`, `m = month + 12a - 3`, integer part
`day + floor((153m+2)/5) + 365y + floor(y/4) - floor(y/100) + floor(y/400)
+ 1721119`, plus the fractional day from hour/minute/second, minus `0.5`;
no error conditions, leap years included. -/
theorem getJulianDate_eq_spec (d : DateTime) : getJulianDate d = julianDateSpec d := by
  simp only [getJulianDate, julianDateSpec]
  have h14 : ((14 : ℝ) - (d.month : ℝ)) / 12 = ((14 - d.month : ℤ) : ℝ) / ((12 : ℤ) : ℝ) := by
    push_cast; ring
  rw [h14, floor_intCast_div_real _ _ (by norm_num)]
  have h153 : (153 * ((d.month : ℝ) + 12 * (((14 - d.month) / 12 : ℤ) : ℝ) - 3) + 2) / 5
      = ((153 * (d.month + 12 * ((14 - d.month) / 12) - 3) + 2 : ℤ) : ℝ) / ((5 : ℤ) : ℝ) := by
    push_cast; ring
  rw [h153, floor_intCast_div_real _ _ (by norm_num)]
  have hy4 : ((d.year : ℝ) - (((14 - d.month) / 12 : ℤ) : ℝ)) / 4
      = ((d.year - (14 - d.month) / 12 : ℤ) : ℝ) / ((4 : ℤ) : ℝ) := by
    push_cast; ring
  have hy100 : ((d.year : ℝ) - (((14 - d.month) / 12 : ℤ) : ℝ)) / 100
      = ((d.year - (14 - d.month) / 12 : ℤ) : ℝ) / ((100 : ℤ) : ℝ) := by
    push_cast; ring
  have hy400 : ((d.year : ℝ) - (((14 - d.month) / 12 : ℤ) : ℝ)) / 400
      = ((d.year - (14 - d.month) / 12 : ℤ) : ℝ) / ((400 : ℤ) : ℝ) := by
    push_cast; ring
  rw [hy4, floor_intCast_div_real _ _ (by norm_num),
    hy100, floor_intCast_div_real _ _ (by norm_num),
    hy400, floor_intCast_div_real _ _ (by norm_num)]
  push_cast
  ring

/-! ## C7 and C10: the qibla bearing -/

/-- C7. For every observer coordinate in range, the qibla bearing — the
initial great-circle bearing toward the Kaaba computed by
`calculateQiblaDirection` via `atan2`, degrees conversion and
`(bearing + 360) % 360` — lies in `[0, 360)`. -/
theorem qibla_bearing_in_range (lat lon : ℝ) (h1 : -90 ≤ lat) (h2 : lat ≤ 90)
    (h3 : -180 ≤ lon) (h4 : lon ≤ 180) :
    0 ≤ calculateQiblaDirection lat lon ∧ calculateQiblaDirection lat lon < 360 := by
  simp only [calculateQiblaDirection]
  exact bearing_normalized _ _

/-- Witness for C7 at the origin coordinate. -/
theorem qibla_bearing_in_range_witness :
    0 ≤ calculateQiblaDirection 0 0 ∧ calculateQiblaDirection 0 0 < 360 :=
  qibla_bearing_in_range 0 0 (by norm_num) (by norm_num) (by norm_num) (by norm_num)

/-- C10. For an observer exactly at the Kaaba coordinate the bearing
computation is total and returns `0`: both `atan2` arguments vanish,
`atan2 0 0 = 0`, and the normalisation keeps `0`. -/
theorem qibla_at_kaaba_is_zero : calculateQiblaDirection 21.4225 39.8262 = 0 := by
  simp only [calculateQiblaDirection, KAABA_LOCATION]
  have hy : sin (39.8262 * (π / 180) - 39.8262 * (π / 180)) * cos (21.4225 * (π / 180)) = 0 := by
    rw [sub_self, Real.sin_zero, zero_mul]
  have hx : cos (21.4225 * (π / 180)) * sin (21.4225 * (π / 180)) -
      sin (21.4225 * (π / 180)) * cos (21.4225 * (π / 180)) *
        cos (39.8262 * (π / 180) - 39.8262 * (π / 180)) = 0 := by
    rw [sub_self, Real.cos_zero]; ring
  rw [hy, hx]
  have hatan : atan2 0 0 = 0 := by
    unfold atan2
    have hz : (⟨0, 0⟩ : ℂ) = 0 := by
      apply Complex.ext <;> simp
    rw [hz, Complex.arg_zero]
  rw [hatan, zero_mul, zero_add]
  unfold jsRem jsTrunc
  norm_num

/-! ## C8: the 12-hour format/parse round trip -/

set_option maxHeartbeats 2000000 in
/-- C8. For every hour in `[0, 23]` and minute in `[0, 59]`, formatting to
the 12-hour string (hour 0 rendered as 12 with AM, hours 13-23 as hour-12
with PM, zero-padded minutes) and parsing back with the AM/PM conversion
rules (PM and hour not 12 adds 12, AM and hour 12 yields 0) recovers the
original 24-hour pair. -/
theorem format_parse_roundtrip (h m : ℕ) (hh : h < 24) (hm : m < 60) :
    parseTime12 (formatTime12 h m) = some (h, m) := by
  have H : ∀ a ∈ Finset.range 24, ∀ b ∈ Finset.range 60,
      parseTime12 (formatTime12 a b) = some (a, b) := by decide
  exact H h (Finset.mem_range.mpr hh) m (Finset.mem_range.mpr hm)

/-- Witness for C8 at 13:05, rendered "1:05 PM". -/
theorem format_parse_roundtrip_witness :
    13 < 24 ∧ 5 < 60 ∧ parseTime12 (formatTime12 13 5) = some (13, 5) :=
  ⟨by norm_num, by norm_num, format_parse_roundtrip 13 5 (by norm_num) (by norm_num)⟩

/-! ## C9: error masking in getPrayerTimes -/

/-- C9. When any step of the location acquisition throws, `getPrayerTimes`
does not propagate the error: it returns the fixed mock list (Fajr 5:30,
Sunrise 6:55, Dhuhr 12:25, Asr 15:40, Maghrib 18:15, Isha 19:35) annotated
with `isNext`/`isPassed` against the current clock, so the result always has
six entries. -/
theorem getPrayerTimes_error_returns_mock (e : String) (d : DateTime) (now : ℕ) :
    getPrayerTimes (Except.error e) d now = getMockPrayerTimes now ∧
    (getPrayerTimes (Except.error e) d now).length = 6 ∧
    (getPrayerTimes (Except.error e) d now).map (fun p => (p.id, p.time)) =
      [("fajr", "5:30 AM"), ("sunrise", "6:55 AM"), ("dhuhr", "12:25 PM"),
       ("asr", "3:40 PM"), ("maghrib", "6:15 PM"), ("isha", "7:35 PM")] ∧
    (getPrayerTimes (Except.error e) d now).map (fun p => p.isPassed) =
      [decide (330 ≤ now), decide (415 ≤ now), decide (745 ≤ now),
       decide (940 ≤ now), decide (1095 ≤ now), decide (1175 ≤ now)] :=
  ⟨rfl, rfl, rfl, rfl⟩

/-! ## Numeric evaluation helpers for the hour-angle pipeline -/

/-- Arccosine of `sin (-c)` for `c` in the first quadrant. -/
theorem arccos_sin_neg (c : ℝ) (h0 : 0 ≤ c) (h2 : c ≤ π / 2) :
    arccos (sin (-c)) = π / 2 + c := by
  have hπ := Real.pi_pos
  rw [Real.arccos_eq_pi_div_two_sub_arcsin, Real.arcsin_sin (by linarith) (by linarith)]
  ring

/-- At the equator with zero declination the hour-angle cosine is just the
sine of the depression angle. -/
theorem cosHourAngle_equator (a : ℝ) : cosHourAngle 0 0 a = sin (a * π / 180) := by
  unfold cosHourAngle
  simp

/-- The Fajr call of line 189 (`angle = -18`, `isSunrise = false`) at the
equator with zero declination and zero equation of time evaluates to
`12 + 108/15 = 19.2` hours: the hour angle lands on the after-noon side. -/
theorem fajr_value : calculatePrayerTime 0 0 0 0 (-18) false 0 = 96 / 5 := by
  have hc : cosHourAngle 0 0 (-18) = sin (-(π / 10)) := by
    rw [cosHourAngle_equator, show (-18 : ℝ) * π / 180 = -(π / 10) by ring]
  have hπ := Real.pi_pos
  have habs : ¬(|cosHourAngle 0 0 (-18)| > 1) := by
    rw [hc, not_lt]
    exact abs_le.mpr ⟨Real.neg_one_le_sin _, Real.sin_le_one _⟩
  unfold calculatePrayerTime
  rw [if_neg habs]
  simp only [Bool.false_eq_true, if_false]
  rw [hc, arccos_sin_neg (π / 10) (by positivity) (by linarith)]
  unfold getSolarNoon
  field_simp
  ring

/-- The Sunrise call of line 190 (`angle = -0.833`, `isSunrise = true`)
under the same equatorial conditions evaluates to
`12 - 90.833/15 ≈ 5.944` hours. -/
theorem sunrise_value : calculatePrayerTime 0 0 0 0 (-0.833) true 0 = 89167 / 15000 := by
  have hc : cosHourAngle 0 0 (-0.833) = sin (-(833 * π / 180000)) := by
    rw [cosHourAngle_equator, show (-0.833 : ℝ) * π / 180 = -(833 * π / 180000) by norm_num; ring]
  have hπ := Real.pi_pos
  have habs : ¬(|cosHourAngle 0 0 (-0.833)| > 1) := by
    rw [hc, not_lt]
    exact abs_le.mpr ⟨Real.neg_one_le_sin _, Real.sin_le_one _⟩
  unfold calculatePrayerTime
  rw [if_neg habs]
  simp only [if_true]
  rw [hc, arccos_sin_neg (833 * π / 180000) (by positivity) (by linarith)]
  unfold getSolarNoon
  field_simp
  ring

/-- Hour/minute split of the computed Fajr value: 19:12. -/
theorem tHM_fajr : timeToHourMinute (96 / 5 : ℝ) = (19, 12) := by
  unfold timeToHourMinute
  norm_num [round_eq]
  omega

/-- Hour/minute split of the computed Sunrise value: 5:57. -/
theorem tHM_sunrise : timeToHourMinute (89167 / 15000 : ℝ) = (5, 57) := by
  unfold timeToHourMinute
  norm_num [round_eq]
  omega

/-- The hour-angle cosine at latitude 60 with declination 60. -/
theorem cosHourAngle_60_60 (a : ℝ) : cosHourAngle 60 60 a = 4 * sin (a * π / 180) - 3 := by
  unfold cosHourAngle
  rw [show (60 : ℝ) * π / 180 = π / 3 by ring, Real.sin_pi_div_three, Real.cos_pi_div_three]
  have h3 : Real.sqrt 3 * Real.sqrt 3 = 3 := Real.mul_self_sqrt (by norm_num)
  rw [div_eq_iff (by norm_num : ((1 : ℝ) / 2) * (1 / 2) ≠ 0)]
  linear_combination (-(1 : ℝ) / 4) * h3

/-- At latitude 60 with declination 60 every depression angle `-b` with `b`
in `[0, 180]` puts the hour-angle cosine outside `[-1, 1]`, so the
extreme-latitude fallback branch is taken. -/
theorem abs_cosHourAngle_60_60_gt_one (b : ℝ) (hb0 : 0 ≤ b) (hb1 : b ≤ 180) :
    |cosHourAngle 60 60 (-b)| > 1 := by
  rw [cosHourAngle_60_60, show (-b) * π / 180 = -(b * π / 180) by ring, Real.sin_neg]
  have hπ := Real.pi_pos
  have hs : 0 ≤ sin (b * π / 180) :=
    Real.sin_nonneg_of_nonneg_of_le_pi
      (div_nonneg (mul_nonneg hb0 hπ.le) (by norm_num)) (by nlinarith)
  rw [abs_of_nonpos (by linarith)]
  linarith

/-! ## C1: which side of solar noon Fajr lands on -/

/-- C1. The claim says Fajr equals solar noon minus the hour angle for the
18-degree depression. The code invokes `calculatePrayerTime` for Fajr with
`isSunrise = false` (line 189), so whenever the hour-angle equation has a
solution it returns solar noon PLUS the hour angle: at the equator with
zero declination the code's Fajr is `19.2` hours while solar noon minus the
hour angle is `4.8` hours. -/
theorem fajr_computed_after_solar_noon :
    calculatePrayerTime 0 0 0 0 (-18) false 0 =
      getSolarNoon 0 0 0 + arccos (cosHourAngle 0 0 (-18)) * 180 / π / 15 ∧
    calculatePrayerTime 0 0 0 0 (-18) false 0 = 96 / 5 ∧
    getSolarNoon 0 0 0 - arccos (cosHourAngle 0 0 (-18)) * 180 / π / 15 = 24 / 5 ∧
    (96 / 5 : ℝ) ≠ 24 / 5 := by
  have hπ := Real.pi_pos
  have hc : cosHourAngle 0 0 (-18) = sin (-(π / 10)) := by
    rw [cosHourAngle_equator, show (-18 : ℝ) * π / 180 = -(π / 10) by ring]
  have habs : ¬(|cosHourAngle 0 0 (-18)| > 1) := by
    rw [hc, not_lt]
    exact abs_le.mpr ⟨Real.neg_one_le_sin _, Real.sin_le_one _⟩
  refine ⟨?_, fajr_value, ?_, by norm_num⟩
  · unfold calculatePrayerTime
    rw [if_neg habs]
    simp only [Bool.false_eq_true, if_false]
  · rw [hc, arccos_sin_neg (π / 10) (by positivity) (by linarith)]
    unfold getSolarNoon
    field_simp
    ring

/-! ## C2: the fallback value the Fajr call receives -/

/-- C2. Whenever the UNDEFINED branch fires for the Fajr and Isha calls as
the source makes them (`isSunrise = false`, lines 189 and 194), the result
is `18 + utcOffset` — the sunset-type fallback — for BOTH, including Fajr,
which the claim expects to get the sunrise-type value `6 + utcOffset`. -/
theorem fajr_fallback_is_sunset_value (lat lng declination equationOfTime tz : ℝ)
    (hf : |cosHourAngle lat declination (-18)| > 1)
    (hi : |cosHourAngle lat declination (-17)| > 1) :
    calculatePrayerTime lat lng declination equationOfTime (-18) false tz = 18 + tz ∧
    calculatePrayerTime lat lng declination equationOfTime (-17) false tz = 18 + tz := by
  refine ⟨?_, ?_⟩
  · unfold calculatePrayerTime
    rw [if_pos hf]
    simp
  · unfold calculatePrayerTime
    rw [if_pos hi]
    simp

/-- Witness for C2: at latitude 60 with declination 60 both hour-angle
equations are unsolvable and the Fajr/Isha calls return `18 + tz`. -/
theorem fajr_fallback_is_sunset_value_witness :
    |cosHourAngle 60 60 (-18)| > 1 ∧ |cosHourAngle 60 60 (-17)| > 1 ∧
    (calculatePrayerTime 60 5 60 3 (-18) false 2 = 18 + 2 ∧
      calculatePrayerTime 60 5 60 3 (-17) false 2 = 18 + 2) := by
  have h18 : |cosHourAngle 60 60 (-18)| > 1 :=
    abs_cosHourAngle_60_60_gt_one 18 (by norm_num) (by norm_num)
  have h17 : |cosHourAngle 60 60 (-17)| > 1 :=
    abs_cosHourAngle_60_60_gt_one 17 (by norm_num) (by norm_num)
  exact ⟨h18, h17, fajr_fallback_is_sunset_value 60 5 60 3 2 h18 h17⟩

/-! ## C3: monotonicity of the six prayer moments -/

/-- C3. The six computed prayer moments are NOT non-decreasing: at the
equator with zero declination and zero equation of time (no fallback branch
taken for Fajr or Sunrise), Fajr computes to 19:12 (1152 minutes) and
Sunrise to 5:57 (357 minutes), so the very first step of the sequence
already decreases. -/
theorem prayer_order_violated :
    List.Chain' (fun a b => a ≤ b) (prayerMinutesOfParams 0 0 0 0 0) = False := by
  apply eq_false
  intro hch
  simp only [prayerMinutesOfParams, rawPrayerTimes, List.map_cons, List.map_nil] at hch
  rw [List.chain'_cons] at hch
  obtain ⟨hle, -⟩ := hch
  rw [fajr_value, sunrise_value, tHM_fajr, tHM_sunrise] at hle
  norm_num at hle

/-! ## C5: the isNext/isPassed invariant -/

/-- Projection of the annotated list onto `isPassed` recovers the pointwise
comparison of prayer minutes with the clock. -/
theorem map_isPassed_aux (nxt now : ℕ) (l : List RawPrayer) (s : ℕ) :
    ((l.enumFrom s).map (annotateEntry nxt now)).map (fun p => p.isPassed) =
      (l.map (fun p => p.hour * 60 + p.minute)).map (fun t => decide (t ≤ now)) := by
  induction l generalizing s with
  | nil => rfl
  | cons x xs ih => simp [List.enumFrom_cons, annotateEntry, ih (s + 1)]

/-- Exactly the entry whose index is `nxt` carries `isNext`, when `nxt` is
among the enumerated indices. -/
theorem countP_isNext_aux (nxt now : ℕ) (l : List RawPrayer) (s : ℕ) :
    ((l.enumFrom s).map (annotateEntry nxt now)).countP (fun p => p.isNext) =
      if s ≤ nxt ∧ nxt < s + l.length then 1 else 0 := by
  induction l generalizing s with
  | nil =>
    simp only [List.enumFrom_nil, List.map_nil, List.countP_nil, List.length_nil]
    rw [if_neg (by omega)]
  | cons x xs ih =>
    simp only [List.enumFrom_cons, List.map_cons, List.countP_cons, ih (s + 1), annotateEntry,
      List.length_cons]
    by_cases h : s = nxt
    · subst h
      simp
    · have hd : decide (s = nxt) = false := decide_eq_false h
      simp [hd]
      split_ifs <;> omega

/-- The first `isNext` entry sits at index `nxt`, when `nxt` is among the
enumerated indices. -/
theorem findIdx_isNext_aux (nxt now : ℕ) (l : List RawPrayer) (s : ℕ) :
    ((l.enumFrom s).map (annotateEntry nxt now)).findIdx (fun p => p.isNext) =
      if s ≤ nxt ∧ nxt < s + l.length then nxt - s else l.length := by
  induction l generalizing s with
  | nil =>
    simp only [List.enumFrom_nil, List.map_nil, List.findIdx_nil, List.length_nil]
    rw [if_neg (by omega)]
  | cons x xs ih =>
    simp only [List.enumFrom_cons, List.map_cons, List.findIdx_cons, annotateEntry,
      List.length_cons]
    by_cases h : s = nxt
    · subst h
      simp
    · have hd : decide (s = nxt) = false := decide_eq_false h
      simp [hd, ih (s + 1)]
      split_ifs <;> omega

/-- The flag invariant of the annotation step, for any nonempty prayer
list: `isPassed` is the pointwise clock comparison; exactly one entry is
`isNext`, sitting at `nextPrayerIndex`; the minutes at the found index
exceed the clock while every earlier entry has passed; when no entry is in
the future every entry has passed and the index wraps; an entry flagged
both `isNext` and `isPassed` can only be the wrapped entry 0. -/
theorem annotatePrayers_invariant (times : List RawPrayer) (now : ℕ)
    (hpos : 0 < times.length) :
    (annotatePrayers times now).map (fun p => p.isPassed) =
      (prayerMinutesList times).map (fun t => decide (t ≤ now)) ∧
    (annotatePrayers times now).countP (fun p => p.isNext) = 1 ∧
    (annotatePrayers times now).findIdx (fun p => p.isNext) = nextPrayerIndex times now ∧
    ((prayerMinutesList times).findIdx (fun t => decide (t > now)) <
        (prayerMinutesList times).length →
      now < (prayerMinutesList times).getD
        ((prayerMinutesList times).findIdx (fun t => decide (t > now))) 0) ∧
    (∀ j, j < (prayerMinutesList times).findIdx (fun t => decide (t > now)) →
      (prayerMinutesList times).getD j 0 ≤ now) ∧
    ((prayerMinutesList times).findIdx (fun t => decide (t > now)) = times.length →
      ∀ t ∈ prayerMinutesList times, t ≤ now) ∧
    (∀ i, ∀ hi : i < (annotatePrayers times now).length,
      ((annotatePrayers times now).get ⟨i, hi⟩).isNext = true ∧
        ((annotatePrayers times now).get ⟨i, hi⟩).isPassed = true →
      i = 0 ∧ (prayerMinutesList times).findIdx (fun t => decide (t > now)) = times.length) := by
  have hms_len : (prayerMinutesList times).length = times.length := by
    simp [prayerMinutesList]
  have hk_le : (prayerMinutesList times).findIdx (fun t => decide (t > now)) ≤
      (prayerMinutesList times).length := List.findIdx_le_length _
  have hnxt_lt : nextPrayerIndex times now < times.length := by
    unfold nextPrayerIndex
    split_ifs with h
    · omega
    · omega
  refine ⟨?_, ?_, ?_, ?_, ?_, ?_, ?_⟩
  · exact map_isPassed_aux _ now times 0
  · have := countP_isNext_aux (nextPrayerIndex times now) now times 0
    rw [show annotatePrayers times now =
        (times.enumFrom 0).map (annotateEntry (nextPrayerIndex times now) now) from rfl]
    rw [this, if_pos (by omega)]
  · have := findIdx_isNext_aux (nextPrayerIndex times now) now times 0
    rw [show annotatePrayers times now =
        (times.enumFrom 0).map (annotateEntry (nextPrayerIndex times now) now) from rfl]
    rw [this, if_pos (by omega)]
    omega
  · intro hk
    have hp := List.findIdx_getElem (p := fun t => decide (t > now)) (w := hk)
    have hgd : (prayerMinutesList times).getD
        ((prayerMinutesList times).findIdx (fun t => decide (t > now))) 0 =
        (prayerMinutesList times).get
          ⟨(prayerMinutesList times).findIdx (fun t => decide (t > now)), hk⟩ := by
      simp [List.getD_eq_getElem?_getD, List.getElem?_eq_getElem hk]
    rw [hgd]
    simpa using hp
  · intro j hj
    have hjlen : j < (prayerMinutesList times).length := lt_of_lt_of_le hj hk_le
    have hp := List.not_of_lt_findIdx (p := fun t => decide (t > now)) hj
    have hgd : (prayerMinutesList times).getD j 0 =
        (prayerMinutesList times).get ⟨j, hjlen⟩ := by
      simp [List.getD_eq_getElem?_getD, List.getElem?_eq_getElem hjlen]
    rw [hgd]
    simpa using hp
  · intro hk t ht
    have hk' : (prayerMinutesList times).findIdx (fun t => decide (t > now)) =
        (prayerMinutesList times).length := by omega
    have := List.findIdx_eq_length.mp hk' t ht
    simpa using this
  · intro i hi hflags
    obtain ⟨hnext, hpassed⟩ := hflags
    have hi' : i < times.length := by
      have : (annotatePrayers times now).length = times.length := by
        simp [annotatePrayers]
      omega
    have hentry : (annotatePrayers times now).get ⟨i, hi⟩ =
        annotateEntry (nextPrayerIndex times now) now (i, times.get ⟨i, hi'⟩) := by
      simp [annotatePrayers, annotateEntry, List.get_eq_getElem, List.getElem_map,
        List.getElem_enumFrom]
    rw [hentry] at hnext hpassed
    have hieq : i = nextPrayerIndex times now := of_decide_eq_true hnext
    have hmle : (times.get ⟨i, hi'⟩).hour * 60 + (times.get ⟨i, hi'⟩).minute ≤ now :=
      of_decide_eq_true hpassed
    by_cases hkl : (prayerMinutesList times).findIdx (fun t => decide (t > now)) =
        (prayerMinutesList times).length
    · constructor
      · rw [hieq]
        unfold nextPrayerIndex
        rw [if_pos hkl]
      · omega
    · exfalso
      have hklt : (prayerMinutesList times).findIdx (fun t => decide (t > now)) <
          (prayerMinutesList times).length := by omega
      have hieq2 : i = (prayerMinutesList times).findIdx (fun t => decide (t > now)) := by
        rw [hieq]
        unfold nextPrayerIndex
        rw [if_neg hkl]
      have hp := List.findIdx_getElem (p := fun t => decide (t > now)) (w := hklt)
      have hgt : now < (prayerMinutesList times).get
          ⟨(prayerMinutesList times).findIdx (fun t => decide (t > now)), hklt⟩ := by
        simpa using hp
      have hval : (prayerMinutesList times).get
          ⟨(prayerMinutesList times).findIdx (fun t => decide (t > now)), hklt⟩ =
          (times.get ⟨i, hi'⟩).hour * 60 + (times.get ⟨i, hi'⟩).minute := by
        subst hieq2
        simp [prayerMinutesList, List.getElem_map]
      omega

/-- C5. For every output of `calculatePrayerTimes` and the clock value it
was computed against: every entry's `isPassed` equals the comparison of the
entry's minutes with the clock; exactly one entry has `isNext`, namely the
`nextPrayerIndex` entry — the first whose minutes strictly exceed the clock,
or entry 0 when every entry has passed; and an entry with both flags set
can only be the wrapped entry 0. -/
theorem prayer_flags_invariant (lat lng : ℝ) (d : DateTime) (now : ℕ) :
    (calculatePrayerTimes lat lng d now).map (fun p => p.isPassed) =
      (prayerMinutesList (getIslamicPrayerTimes lat lng d)).map (fun t => decide (t ≤ now)) ∧
    (calculatePrayerTimes lat lng d now).countP (fun p => p.isNext) = 1 ∧
    (calculatePrayerTimes lat lng d now).findIdx (fun p => p.isNext) =
      nextPrayerIndex (getIslamicPrayerTimes lat lng d) now ∧
    ((prayerMinutesList (getIslamicPrayerTimes lat lng d)).findIdx (fun t => decide (t > now)) <
        (prayerMinutesList (getIslamicPrayerTimes lat lng d)).length →
      now < (prayerMinutesList (getIslamicPrayerTimes lat lng d)).getD
        ((prayerMinutesList (getIslamicPrayerTimes lat lng d)).findIdx
          (fun t => decide (t > now))) 0) ∧
    (∀ j, j < (prayerMinutesList (getIslamicPrayerTimes lat lng d)).findIdx
        (fun t => decide (t > now)) →
      (prayerMinutesList (getIslamicPrayerTimes lat lng d)).getD j 0 ≤ now) ∧
    ((prayerMinutesList (getIslamicPrayerTimes lat lng d)).findIdx (fun t => decide (t > now)) =
        (getIslamicPrayerTimes lat lng d).length →
      ∀ t ∈ prayerMinutesList (getIslamicPrayerTimes lat lng d), t ≤ now) ∧
    (∀ i, ∀ hi : i < (calculatePrayerTimes lat lng d now).length,
      ((calculatePrayerTimes lat lng d now).get ⟨i, hi⟩).isNext = true ∧
        ((calculatePrayerTimes lat lng d now).get ⟨i, hi⟩).isPassed = true →
      i = 0 ∧ (prayerMinutesList (getIslamicPrayerTimes lat lng d)).findIdx
          (fun t => decide (t > now)) = (getIslamicPrayerTimes lat lng d).length) :=
  annotatePrayers_invariant (getIslamicPrayerTimes lat lng d) now
    (by simp [getIslamicPrayerTimes, rawPrayerTimes])

/-! ## C4: dependence on the wall clock -/

/-- The normalised time-of-day lies in `[0, 24)`. -/
theorem u_bounds (x : ℝ) :
    0 ≤ x - 24 * ((⌊x / 24⌋ : ℤ) : ℝ) ∧ x - 24 * ((⌊x / 24⌋ : ℤ) : ℝ) < 24 := by
  have h1 := Int.sub_floor_div_mul_nonneg x (by norm_num : (0 : ℝ) < 24)
  have h2 := Int.sub_floor_div_mul_lt x (by norm_num : (0 : ℝ) < 24)
  constructor <;> linarith

/-- The hour/minute pair of `timeToHourMinute` is a valid time of day. -/
theorem timeToHourMinute_bounds (x : ℝ) :
    (timeToHourMinute x).1 ≤ 23 ∧ (timeToHourMinute x).2 ≤ 59 := by
  obtain ⟨h0, h24⟩ := u_bounds x
  simp only [timeToHourMinute]
  have hf0 : 0 ≤ ⌊x - 24 * ((⌊x / 24⌋ : ℤ) : ℝ)⌋ := Int.floor_nonneg.mpr h0
  have hf24 : ⌊x - 24 * ((⌊x / 24⌋ : ℤ) : ℝ)⌋ < 24 := Int.floor_lt.mpr (by exact_mod_cast h24)
  split_ifs with hm
  · refine ⟨?_, by omega⟩
    simp only []
    omega
  · refine ⟨?_, by simp⟩
    simp only []
    omega

/-- The minutes-since-midnight of any normalised time is at most 1439. -/
theorem timeToHourMinute_minutes_le (x : ℝ) :
    (timeToHourMinute x).1 * 60 + (timeToHourMinute x).2 ≤ 1439 := by
  obtain ⟨h1, h2⟩ := timeToHourMinute_bounds x
  omega

/-- A time whose hour/minute pair is `(0, 0)` sits within half a rounded
minute of midnight: its normalised value is below `1/120` of an hour or at
least `24 - 1/120`. -/
theorem tHM_zero_u (x : ℝ) (h : timeToHourMinute x = (0, 0)) :
    x - 24 * ((⌊x / 24⌋ : ℤ) : ℝ) < 1 / 120 ∨
      24 - 1 / 120 ≤ x - 24 * ((⌊x / 24⌋ : ℤ) : ℝ) := by
  obtain ⟨h0, h24⟩ := u_bounds x
  set u := x - 24 * ((⌊x / 24⌋ : ℤ) : ℝ) with hu
  have hf0 : 0 ≤ ⌊u⌋ := Int.floor_nonneg.mpr h0
  have hf24 : ⌊u⌋ < 24 := Int.floor_lt.mpr (by exact_mod_cast h24)
  have hfl : ((⌊u⌋ : ℤ) : ℝ) ≤ u := Int.floor_le u
  have hfl2 : u < ((⌊u⌋ : ℤ) : ℝ) + 1 := Int.lt_floor_add_one u
  simp only [timeToHourMinute] at h
  rw [← hu] at h
  split_ifs at h with hm
  · right
    have h1 : (⌊u⌋.toNat + 1) % 24 = 0 := by
      have := congrArg Prod.fst h
      simpa using this
    have h23 : ⌊u⌋ = 23 := by omega
    have hr : (60 : ℤ) ≤ round ((u - ((⌊u⌋ : ℤ) : ℝ)) * 60) := by omega
    rw [round_eq, Int.le_floor] at hr
    rw [h23] at hr
    push_cast at hr
    linarith
  · left
    have h1 : ⌊u⌋.toNat = 0 := by
      have := congrArg Prod.fst h
      simpa using this
    have h0f : ⌊u⌋ = 0 := by omega
    have h2 : max 0 (min 59 (round ((u - ((⌊u⌋ : ℤ) : ℝ)) * 60)).toNat) = 0 := by
      have := congrArg Prod.snd h
      simpa using this
    have hm0 : (round ((u - ((⌊u⌋ : ℤ) : ℝ)) * 60)).toNat = 0 := by omega
    have hr : round ((u - ((⌊u⌋ : ℤ) : ℝ)) * 60) < 1 := by omega
    rw [round_eq, Int.floor_lt] at hr
    rw [h0f] at hr
    push_cast at hr
    linarith

/-- Two times exactly half an hour apart cannot both normalise to the
hour/minute pair `(0, 0)`. -/
theorem tHM_not_both_zero (x : ℝ) :
    ¬(timeToHourMinute x = (0, 0) ∧ timeToHourMinute (x - 1 / 2) = (0, 0)) := by
  rintro ⟨hx, hx'⟩
  obtain ⟨h0, h24⟩ := u_bounds x
  have hd1 := tHM_zero_u x hx
  have hd2 := tHM_zero_u (x - 1 / 2) hx'
  set u := x - 24 * ((⌊x / 24⌋ : ℤ) : ℝ) with hu
  clear_value u
  have hq : (x - 1 / 2) / 24 = (u - 1 / 2) / 24 + ((⌊x / 24⌋ : ℤ) : ℝ) := by
    rw [hu]; ring
  have hfloor : ⌊(x - 1 / 2) / 24⌋ = ⌊(u - 1 / 2) / 24⌋ + ⌊x / 24⌋ := by
    rw [hq]
    exact_mod_cast Int.floor_add_int ((u - 1 / 2) / 24) ⌊x / 24⌋
  have hu2 : x - 1 / 2 - 24 * ((⌊(x - 1 / 2) / 24⌋ : ℤ) : ℝ)
      = u - 1 / 2 - 24 * ((⌊(u - 1 / 2) / 24⌋ : ℤ) : ℝ) := by
    rw [hfloor]; push_cast; rw [hu]; ring
  rcases hd1 with hcase | hcase
  · have hf : ⌊(u - 1 / 2) / 24⌋ = -1 := by
      rw [Int.floor_eq_iff]
      push_cast
      constructor <;> linarith
    rw [hu2, hf] at hd2
    push_cast at hd2
    rcases hd2 with h2 | h2 <;> linarith
  · have hf : ⌊(u - 1 / 2) / 24⌋ = 0 := by
      rw [Int.floor_eq_zero_iff]
      constructor
      · linarith
      · show (u - 1 / 2) / 24 < 1
        linarith
    rw [hu2, hf] at hd2
    push_cast at hd2
    rcases hd2 with h2 | h2 <;> linarith

/-- If the outputs of `calculatePrayerTimes` against clock minute 0 and
clock minute 1439 coincide, every computed prayer minute is 0; in
particular the raw Dhuhr time normalises to `(0, 0)`. -/
theorem dhuhr_zero_of_outputs_equal (lat lng : ℝ) (d : DateTime)
    (h : calculatePrayerTimes lat lng d 0 = calculatePrayerTimes lat lng d 1439) :
    timeToHourMinute (getSolarNoon lng (getEquationOfTime (getJulianDate d))
      d.utcOffsetHours) = (0, 0) := by
  have hpos : 0 < (getIslamicPrayerTimes lat lng d).length := by
    simp [getIslamicPrayerTimes, rawPrayerTimes]
  have h1 := (annotatePrayers_invariant (getIslamicPrayerTimes lat lng d) 0 hpos).1
  have h2 := (annotatePrayers_invariant (getIslamicPrayerTimes lat lng d) 1439 hpos).1
  have hc := congrArg (List.map (fun p => p.isPassed)) h
  rw [show calculatePrayerTimes lat lng d 0 =
      annotatePrayers (getIslamicPrayerTimes lat lng d) 0 from rfl,
    show calculatePrayerTimes lat lng d 1439 =
      annotatePrayers (getIslamicPrayerTimes lat lng d) 1439 from rfl] at hc
  rw [h1, h2] at hc
  simp only [prayerMinutesList, getIslamicPrayerTimes, rawPrayerTimes, List.map_cons,
    List.map_nil, List.cons.injEq, and_assoc] at hc
  obtain ⟨-, -, hd2, -⟩ := hc
  set T := getSolarNoon lng (getEquationOfTime (getJulianDate d)) d.utcOffsetHours with hT
  have hle : (timeToHourMinute T).1 * 60 + (timeToHourMinute T).2 ≤ 1439 :=
    timeToHourMinute_minutes_le T
  rw [decide_eq_true hle] at hd2
  have hz : (timeToHourMinute T).1 * 60 + (timeToHourMinute T).2 ≤ 0 := of_decide_eq_true hd2
  have hp1 : (timeToHourMinute T).1 = 0 := by omega
  have hp2 : (timeToHourMinute T).2 = 0 := by omega
  rw [Prod.ext_iff]
  exact ⟨hp1, hp2⟩

/-- C4 counterexample. The claim — that `calculatePrayerTimes` is a pure
function of latitude, longitude and date alone, the observed clock being an
explicit argument rather than implicit state — is false of the code: the
source reads `now` from the system clock inside the function (line 142), so
two calls with identical latitude, longitude and date arguments made at
different wall-clock instants can return different `isNext`/`isPassed`
flags. Formally, with the observed clock minute made explicit, the output
is not independent of it. -/
theorem calculatePrayerTimes_depends_on_clock :
    (∀ (lat lng : ℝ) (d : DateTime) (n₁ n₂ : ℕ),
      calculatePrayerTimes lat lng d n₁ = calculatePrayerTimes lat lng d n₂) = False := by
  apply eq_false
  intro hall
  have hd0 := dhuhr_zero_of_outputs_equal 0 0 ⟨2024, 3, 20, 12, 0, 0, 0⟩
    (hall 0 0 ⟨2024, 3, 20, 12, 0, 0, 0⟩ 0 1439)
  have hd1 := dhuhr_zero_of_outputs_equal 0 (15 / 2) ⟨2024, 3, 20, 12, 0, 0, 0⟩
    (hall 0 (15 / 2) ⟨2024, 3, 20, 12, 0, 0, 0⟩ 0 1439)
  have hsn : getSolarNoon (15 / 2)
      (getEquationOfTime (getJulianDate ⟨2024, 3, 20, 12, 0, 0, 0⟩))
      (⟨2024, 3, 20, 12, 0, 0, 0⟩ : DateTime).utcOffsetHours =
      getSolarNoon 0 (getEquationOfTime (getJulianDate ⟨2024, 3, 20, 12, 0, 0, 0⟩))
        (⟨2024, 3, 20, 12, 0, 0, 0⟩ : DateTime).utcOffsetHours - 1 / 2 := by
    unfold getSolarNoon; ring
  rw [hsn] at hd1
  exact tHM_not_both_zero _ ⟨hd0, hd1⟩

/-- Projection onto ids, names and formatted times is independent of the
next-index and clock arguments of the annotation step. -/
theorem map_idTime_aux (nxt nxt' now now' : ℕ) (l : List RawPrayer) (s : ℕ) :
    ((l.enumFrom s).map (annotateEntry nxt now)).map (fun p => (p.id, p.name, p.time)) =
      ((l.enumFrom s).map (annotateEntry nxt' now')).map (fun p => (p.id, p.name, p.time)) := by
  induction l generalizing s with
  | nil => rfl
  | cons x xs ih => simp [List.enumFrom_cons, annotateEntry, ih (s + 1)]

/-- C4 amended theorem. With the observed clock minute explicit,
`calculatePrayerTimes` is deterministic in (latitude, longitude, date,
clock); moreover the prayer ids, names and formatted time strings depend
only on latitude, longitude and date — only the `isNext`/`isPassed` flags
see the clock. -/
theorem calculatePrayerTimes_times_ignore_clock (lat lng : ℝ) (d : DateTime) (n₁ n₂ : ℕ) :
    (calculatePrayerTimes lat lng d n₁).map (fun p => (p.id, p.name, p.time)) =
      (calculatePrayerTimes lat lng d n₂).map (fun p => (p.id, p.name, p.time)) :=
  map_idTime_aux (nextPrayerIndex (getIslamicPrayerTimes lat lng d) n₁)
    (nextPrayerIndex (getIslamicPrayerTimes lat lng d) n₂) n₁ n₂
    (getIslamicPrayerTimes lat lng d) 0

end Salati
